import Mathlib

set_option maxRecDepth 100000

/-!
Verification of the two-stage Redis-stream → Qdrant indexing pipeline of
`article_rag` (files `redis_stream/embedding_processor.py` and
`redis_stream/qdrant_consumer.py`, with the sibling copy `qdrant_consumer.py`).

The development shallowly embeds the two message processors as pure functions
producing event traces: Redis stream messages are association lists of string
fields, the embedding service and the Qdrant client are modelled by outcome
oracles (which attempt succeeds), and every externally visible action
(`xadd`, `xack`, a successful Qdrant upsert/delete, a retry sleep, an error
log) becomes an event in the returned trace.  The deterministic point-identity
mapping `uuid.uuid5(namespace, str(doc_id))` is embedded in full, down to
SHA-1 over the UTF-8 bytes.
-/

namespace ArticleRag

/-- Redis stream message as decoded by redis-py with `decode_responses=True`:
a finite map from string field names to string values. -/
abbrev Msg : Type := List (String × String)

/-- Dictionary lookup `message_data.get(k)` returning `None` when absent. -/
def getField (m : Msg) (k : String) : Option String :=
  List.lookup k m

/-- Dictionary lookup `message_data.get(k, d)` with a default. -/
def getFieldD (m : Msg) (k : String) (d : String) : String :=
  (getField m k).getD d

/-- Python `str()` applied to an optional string: `str(None) = "None"`. -/
def pyStr : Option String → String
  | none => "None"
  | some s => s

/-! ### UTF-8 encoding

Python's `uuid.uuid5` hashes `namespace.bytes + name.encode("utf-8")`; we
embed the UTF-8 encoder over Lean characters (which are Unicode scalar
values, as in Python strings). -/

/-- UTF-8 bytes of a single Unicode scalar value. -/
def utf8Char (c : Char) : List Nat :=
  let n := c.toNat
  if n < 128 then [n]
  else if n < 2048 then [192 + n / 64, 128 + n % 64]
  else if n < 65536 then [224 + n / 4096, 128 + (n / 64) % 64, 128 + n % 64]
  else [240 + n / 262144, 128 + (n / 4096) % 64, 128 + (n / 64) % 64, 128 + n % 64]

/-- UTF-8 bytes of a string. -/
def utf8Encode (s : String) : List Nat :=
  (s.data.map utf8Char).flatten

/-! ### SHA-1 over byte lists, on `Nat` with explicit `% 2^32`. -/

/-- Truncation to a 32-bit word. -/
def w32 (n : Nat) : Nat := n % 4294967296

/-- Left rotation of a 32-bit word by `n` bits. -/
def rotl32 (n b : Nat) : Nat :=
  w32 (b * 2 ^ n + b / 2 ^ (32 - n))

/-- Bitwise complement of a 32-bit word. -/
def not32 (b : Nat) : Nat := Nat.xor b 4294967295

/-- SHA-1 message padding: append `0x80`, zero bytes up to 56 mod 64, and the
bit length as a 64-bit big-endian integer. -/
def sha1Pad (msg : List Nat) : List Nat :=
  let len := msg.length
  let zeros := (64 - ((len + 9) % 64)) % 64
  let bitLen := 8 * len
  msg ++ [128] ++ List.replicate zeros 0 ++
    [bitLen / 2 ^ 56 % 256, bitLen / 2 ^ 48 % 256, bitLen / 2 ^ 40 % 256,
     bitLen / 2 ^ 32 % 256, bitLen / 2 ^ 24 % 256, bitLen / 2 ^ 16 % 256,
     bitLen / 2 ^ 8 % 256, bitLen % 256]

/-- Split a byte list into 64-byte blocks, structurally recursing on a fuel
bound (the list length, since each step consumes at least one byte). -/
def toBlocksF : Nat → List Nat → List (List Nat)
  | 0, _ => []
  | _, [] => []
  | fuel + 1, a :: rest =>
      ((a :: rest).take 64) :: toBlocksF fuel ((a :: rest).drop 64)

/-- Split a byte list into 64-byte blocks. -/
def toBlocks (l : List Nat) : List (List Nat) :=
  toBlocksF l.length l

/-- Group bytes into 32-bit big-endian words. -/
def toWords : List Nat → List Nat
  | b0 :: b1 :: b2 :: b3 :: rest =>
      (((b0 * 256 + b1) * 256 + b2) * 256 + b3) :: toWords rest
  | _ => []

/-- Word `i` of the reversed schedule list (most recent first). -/
def wAt (revw : List Nat) (i : Nat) : Nat := revw.getD i 0

/-- Extend the 16 message words to 80, keeping the list most-recent-first. -/
def extendRev (revw : List Nat) : Nat → List Nat
  | 0 => revw
  | fuel + 1 =>
      extendRev
        (rotl32 1 (Nat.xor (Nat.xor (wAt revw 2) (wAt revw 7))
          (Nat.xor (wAt revw 13) (wAt revw 15))) :: revw) fuel

/-- SHA-1 compression state. -/
structure Sha1State where
  a : Nat
  b : Nat
  c : Nat
  d : Nat
  e : Nat

/-- Eighty main rounds, consuming the schedule words with their index. -/
def sha1Rounds : Nat → Sha1State → List Nat → Sha1State
  | _, st, [] => st
  | i, st, wi :: rest =>
      let f :=
        if i < 20 then
          Nat.lor (Nat.land st.b st.c) (Nat.land (not32 st.b) st.d)
        else if i < 40 then Nat.xor (Nat.xor st.b st.c) st.d
        else if i < 60 then
          Nat.lor (Nat.lor (Nat.land st.b st.c) (Nat.land st.b st.d))
            (Nat.land st.c st.d)
        else Nat.xor (Nat.xor st.b st.c) st.d
      let k :=
        if i < 20 then 1518500249
        else if i < 40 then 1859775393
        else if i < 60 then 2400959708
        else 3395469782
      let temp := w32 (rotl32 5 st.a + f + st.e + k + wi)
      sha1Rounds (i + 1) ⟨temp, st.a, rotl32 30 st.b, st.c, st.d⟩ rest

/-- Process one 64-byte block. -/
def sha1Block (h : Sha1State) (block : List Nat) : Sha1State :=
  let sched := (extendRev (toWords block).reverse 64).reverse
  let st := sha1Rounds 0 h sched
  ⟨w32 (h.a + st.a), w32 (h.b + st.b), w32 (h.c + st.c),
   w32 (h.d + st.d), w32 (h.e + st.e)⟩

/-- Big-endian bytes of a 32-bit word. -/
def wordBytes (x : Nat) : List Nat :=
  [x / 2 ^ 24 % 256, x / 2 ^ 16 % 256, x / 2 ^ 8 % 256, x % 256]

/-- SHA-1 digest (20 bytes) of a byte list. -/
def sha1 (msg : List Nat) : List Nat :=
  let init : Sha1State :=
    ⟨1732584193, 4023233417, 2562383102, 271733878, 3285377520⟩
  let final := (toBlocks (sha1Pad msg)).foldl sha1Block init
  wordBytes final.a ++ wordBytes final.b ++ wordBytes final.c ++
    wordBytes final.d ++ wordBytes final.e

/-! ### UUID version 5 -/

/-- Lower-case hexadecimal digit. -/
def hexDigit (n : Nat) : Char :=
  if n < 10 then Char.ofNat (48 + n) else Char.ofNat (87 + n)

/-- Two-digit hexadecimal rendering of one byte. -/
def byteHex (b : Nat) : String :=
  String.mk [hexDigit (b / 16 % 16), hexDigit (b % 16)]

/-- Hexadecimal rendering of a byte list. -/
def bytesHex (bs : List Nat) : String :=
  String.join (bs.map byteHex)

/-- The 16 bytes of the namespace constant
`6ba7b810-9dad-11d1-80b4-00c04fd430c8` (`uuid.UUID(...)` in the source). -/
def uuidNamespaceBytes : List Nat :=
  [107, 167, 184, 16, 157, 173, 17, 209, 128, 180, 0, 192, 79, 212, 48, 200]

/-- UUIDv5 of a name under a namespace: SHA-1 of namespace bytes followed by
the name bytes, truncated to 16 bytes, with the version nibble forced to 5
and the variant bits to RFC 4122, rendered in the canonical dashed form
(Python `str(uuid.uuid5(namespace, name))`). -/
def uuid5 (nsBytes : List Nat) (name : String) : String :=
  let digest := (sha1 (nsBytes ++ utf8Encode name)).take 16
  let fixed := digest.mapIdx fun i b =>
    if i = 6 then b % 16 + 80
    else if i = 8 then b % 64 + 128
    else b
  bytesHex (fixed.take 4) ++ "-" ++ bytesHex ((fixed.drop 4).take 2) ++ "-" ++
    bytesHex ((fixed.drop 6).take 2) ++ "-" ++
    bytesHex ((fixed.drop 8).take 2) ++ "-" ++ bytesHex (fixed.drop 10)

/-- Embedding of `QdrantUpserter._mongodb_id_to_uuid`: the deterministic UUID
of `str(mongodb_id)` under the fixed namespace constant.  The argument is the
optional `doc_id` field exactly as the two call sites pass it. -/
def mongodbIdToUuid (mongodb_id : Option String) : String :=
  uuid5 uuidNamespaceBytes (pyStr mongodb_id)

/-! ### Values written to a stream

`xadd` receives a Python dict whose values are strings, ints
(`vector_size`), or possibly `None` (a `.get` with no default on a missing
field).  redis-py stringifies str/int values and raises `DataError` on
`None`, so serialization is partial. -/

/-- A value of the dict handed to `redis_client.xadd`. -/
inductive RVal
  | rstr (s : String)
  | rint (n : Nat)
  | rnull
deriving DecidableEq, Repr

/-- Dict value from an optional string (`.get` with no default). -/
def optStr : Option String → RVal
  | none => .rnull
  | some s => .rstr s

/-- redis-py serialization of one value; `None` raises `DataError`. -/
def serializeVal : RVal → Option String
  | .rstr s => some s
  | .rint n => some (toString n)
  | .rnull => none

/-- Serialize a whole dict for `xadd`; fails if any value is `None`. -/
def serializeMsg : List (String × RVal) → Option Msg
  | [] => some []
  | (k, v) :: rest =>
      match serializeVal v, serializeMsg rest with
      | some s, some m => some ((k, s) :: m)
      | _, _ => none

/-! ### JSON round-trip of the vector

The producer serializes the embedding with `json.dumps(vector)` and the
consumer reads it back with `json.loads`.  Vector entries are modelled as
integers (the claims depend only on parse success and on the length, never
on the numeric values), so the embedded codec is `json.dumps`/`json.loads`
restricted to flat arrays of integer literals, including the `", "`
separator `json.dumps` emits by default. -/

/-- The string `json.dumps` produces for a flat numeric array. -/
def jsonDumpVector (v : List Int) : String :=
  "[" ++ String.intercalate ", " (v.map toString) ++ "]"

/-- JSON whitespace. -/
def isWs (c : Char) : Bool :=
  c = ' ' || c = '\t' || c = '\n' || c = '\r'

/-- Drop leading JSON whitespace. -/
def skipWs : List Char → List Char
  | [] => []
  | c :: rest => if isWs c then skipWs rest else c :: rest

/-- Split a leading run of decimal digits from the rest. -/
def takeDigits : List Char → List Char × List Char
  | [] => ([], [])
  | c :: rest =>
      if c.isDigit then
        let r := takeDigits rest
        (c :: r.1, r.2)
      else ([], c :: rest)

/-- Value of a digit string. -/
def digitsToNat (ds : List Char) : Nat :=
  ds.foldl (fun a c => a * 10 + (c.toNat - 48)) 0

/-- Parse one (possibly negative) integer literal. -/
def parseIntTok : List Char → Option (Int × List Char)
  | '-' :: rest =>
      match takeDigits rest with
      | ([], _) => none
      | (ds, r) => some (-(digitsToNat ds : Int), r)
  | l =>
      match takeDigits l with
      | ([], _) => none
      | (ds, r) => some ((digitsToNat ds : Int), r)

/-- Parse the comma-separated items after `[`, with fuel for termination. -/
def parseItems (fuel : Nat) (l : List Char) : Option (List Int × List Char) :=
  match fuel with
  | 0 => none
  | f + 1 =>
      match parseIntTok (skipWs l) with
      | none => none
      | some (n, r) =>
          match skipWs r with
          | ']' :: rest => some ([n], rest)
          | ',' :: rest =>
              match parseItems f rest with
              | some (ns, rr) => some (n :: ns, rr)
              | none => none
          | _ => none

/-- Embedding of `json.loads` restricted to flat integer arrays: the parses
the consumer performs on the `vector` field. -/
def parseVector (s : String) : Option (List Int) :=
  match skipWs s.data with
  | '[' :: rest =>
      match skipWs rest with
      | ']' :: r2 => if (skipWs r2).isEmpty then some [] else none
      | l =>
          match parseItems (s.length + 1) l with
          | some (ns, rest2) => if (skipWs rest2).isEmpty then some ns else none
          | none => none
  | _ => none

/-! ### Stage 1: `EmbeddingProcessor` -/

/-- Externally visible actions of one `_process_raw_message` call. -/
inductive Ev1
  | embedCall
  | sleep (n : Nat)
  | xadd (m : Msg)
  | xack
deriving DecidableEq, Repr

/-- Result of one `_process_raw_message` call: the action trace and whether
the call raised (propagating to the caller, leaving the message pending). -/
structure Run1 where
  trace : List Ev1
  raised : Bool
deriving DecidableEq, Repr

/-- The shared `max_retries` constant of both consumers. -/
def maxRetries : Nat := 3

/-- Embedding of `_get_embedding`, parameterized by the service oracle
`svc` (what attempt `i` returns: `some v` on HTTP 200, `none` on any
exception).  Returns the embedding (or `none` when the last attempt raised)
and the trace of calls and backoff sleeps.  `fuel` is the number of
attempts left; `attempt` is the current 0-based index. -/
def getEmbeddingGo (svc : Nat → Option (List Int)) :
    Nat → Nat → Option (List Int) × List Ev1
  | _, 0 => (none, [])
  | attempt, f + 1 =>
      match svc attempt with
      | some v => (some v, [.embedCall])
      | none =>
          if f = 0 then (none, [.embedCall])
          else
            let r := getEmbeddingGo svc (attempt + 1) f
            (r.1, .embedCall :: .sleep (2 ^ attempt) :: r.2)

/-- The `_get_embedding` entry point: `max_retries = 3`, starting at
attempt 0. -/
def getEmbedding (svc : Nat → Option (List Int)) :
    Option (List Int) × List Ev1 :=
  getEmbeddingGo svc 0 maxRetries

/-- Fields joined into the embedding input: subject and content when
truthy (present and non-empty). -/
def textParts (m : Msg) : List String :=
  ["subject", "content"].filterMap fun f =>
    match getField m f with
    | some s => if s = "" then none else some s
    | none => none

/-- The embedding input `" ".join(text_parts)`. -/
def embedText (m : Msg) : String :=
  String.intercalate " " (textParts m)

/-- Drop leading whitespace characters. -/
def dropLeadingWs : List Char → List Char
  | [] => []
  | c :: rest => if c.isWhitespace then dropLeadingWs rest else c :: rest

/-- Python `str.strip()`: remove leading and trailing whitespace. -/
def pyStrip (s : String) : String :=
  String.mk (dropLeadingWs ((dropLeadingWs s.data.reverse).reverse))

/-- Python truncation `content[:500] if len(content) > 500 else content`. -/
def contentPreviewOf (content : String) : String :=
  if content.length > 500 then content.take 500 else content

/-- The `embedded_message` dict built for an insert/update, before `xadd`
serialization (`now` stands for `datetime.now().isoformat()`). -/
def buildEmbedded (m : Msg) (operation : Option String) (vector : List Int)
    (now : String) : List (String × RVal) :=
  let content := getFieldD m "content" ""
  [("operation", optStr operation),
   ("doc_id", optStr (getField m "doc_id")),
   ("product", .rstr (getFieldD m "product" "")),
   ("customer", .rstr (getFieldD m "customer" "")),
   ("owner", .rstr (getFieldD m "owner" "")),
   ("date", .rstr (getFieldD m "date" "")),
   ("subject", .rstr (getFieldD m "subject" "")),
   ("content_full", .rstr content),
   ("content_preview", .rstr (contentPreviewOf content)),
   ("vector", .rstr (jsonDumpVector vector)),
   ("vector_size", .rint vector.length),
   ("timestamp", .rstr now),
   ("stage", .rstr "embedded"),
   ("original_timestamp", optStr (getField m "timestamp"))]

/-- The `embedded_message` dict built for a delete tombstone. -/
def buildTombstone (m : Msg) (now : String) : List (String × RVal) :=
  [("operation", .rstr "delete"),
   ("doc_id", optStr (getField m "doc_id")),
   ("timestamp", .rstr now),
   ("stage", .rstr "embedded"),
   ("original_timestamp", optStr (getField m "timestamp"))]

/-- Embedding of `EmbeddingProcessor._process_raw_message`.  For an unknown
operation the local `embedded_message` is never assigned and the `xadd`
line raises `UnboundLocalError`; a `None` dict value makes `xadd` raise
`DataError`; both are re-raised by the handler without acknowledging. -/
def processRaw (svc : Nat → Option (List Int)) (now : String) (m : Msg) :
    Run1 :=
  let operation := getField m "operation"
  if operation = some "delete" then
    match serializeMsg (buildTombstone m now) with
    | some m2 => ⟨[.xadd m2, .xack], false⟩
    | none => ⟨[], true⟩
  else if operation = some "insert" ∨ operation = some "update" then
    if pyStrip (embedText m) = "" then ⟨[.xack], false⟩
    else
      let r := getEmbedding svc
      match r.1 with
      | none => ⟨r.2, true⟩
      | some vector =>
          match serializeMsg (buildEmbedded m operation vector now) with
          | some m2 => ⟨r.2 ++ [.xadd m2, .xack], false⟩
          | none => ⟨r.2, true⟩
  else ⟨[], true⟩

/-! ### Stage 2: `QdrantUpserter` -/

/-- Qdrant point payload as built by
`redis_stream/qdrant_consumer.py`; fields read with `.get(k, '')` are
strings, fields read with `.get(k)` are optional. -/
structure Payload where
  mongodb_id : Option String
  product : String
  customer : String
  owner : String
  date : String
  subject : String
  content : String
  vector_size : Option String
  embedded_timestamp : Option String
  original_timestamp : Option String
deriving DecidableEq, Repr

/-- A `PointStruct` handed to `qdrant_client.upsert`. -/
structure Point where
  id : String
  vector : List Int
  payload : Payload
deriving DecidableEq, Repr

/-- The payload dict of `redis_stream/qdrant_consumer.py` (its `content`
entry reads the `content` field of the Stage-2 message). -/
def buildPayload (m : Msg) : Payload :=
  { mongodb_id := getField m "doc_id"
    product := getFieldD m "product" ""
    customer := getFieldD m "customer" ""
    owner := getFieldD m "owner" ""
    date := getFieldD m "date" ""
    subject := getFieldD m "subject" ""
    content := getFieldD m "content" ""
    vector_size := getField m "vector_size"
    embedded_timestamp := getField m "timestamp"
    original_timestamp := getField m "original_timestamp" }

/-- The payload dict of the sibling copy `qdrant_consumer.py` at the
repository root, which differs from `redis_stream/qdrant_consumer.py` in
exactly one entry: it reads `content_preview` instead of `content`.  Its
`content` slot of the record therefore holds the preview. -/
def buildPayloadTop (m : Msg) : Payload :=
  { buildPayload m with content := getFieldD m "content_preview" "" }

/-- Externally visible actions of one `_process_embedded_message` call.
`qdelete`/`qupsert` are Qdrant calls that returned success; `logError` is
one of the three explicit validation `logger.error` calls of the
insert/update branch (the generic log of the outer exception handler is
not an event — it always accompanies `raised = true`). -/
inductive Ev2
  | sleep (n : Nat)
  | qdelete (pid : String)
  | qupsert (p : Point)
  | logError
  | xack
deriving DecidableEq, Repr

/-- Result of one `_process_embedded_message` call. -/
structure Run2 where
  trace : List Ev2
  raised : Bool
deriving DecidableEq, Repr

/-- The consumer's `expected_size = 384` constant. -/
def expectedSize : Nat := 384

/-- The `for attempt in range(max_retries)` retry loop around one Qdrant
call, parameterized by the outcome oracle `oc` (does attempt `i`
succeed).  Returns whether some attempt succeeded and the backoff sleeps;
the final failing attempt re-raises without sleeping. -/
def qdrantTry (oc : Nat → Bool) : Nat → Nat → Bool × List Ev2
  | _, 0 => (false, [])
  | attempt, f + 1 =>
      if oc attempt then (true, [])
      else if f = 0 then (false, [])
      else
        let r := qdrantTry oc (attempt + 1) f
        (r.1, .sleep (2 ^ attempt) :: r.2)

/-- Embedding of `QdrantUpserter._process_embedded_message` of
`redis_stream/qdrant_consumer.py`.  The three validation failures of the
insert/update branch (`if not vector_json`, `json.JSONDecodeError`, wrong
size) log an error and `return`, reaching neither the Qdrant call nor the
`xack`; an unrecognized operation falls through both branches straight to
the `xack`; a retry-exhausted Qdrant call re-raises, skipping the `xack`. -/
def processEmbedded (oc : Nat → Bool) (m : Msg) : Run2 :=
  let operation := getField m "operation"
  let doc_id := getField m "doc_id"
  if operation = some "delete" then
    let point_uuid := mongodbIdToUuid doc_id
    let r := qdrantTry oc 0 maxRetries
    if r.1 then ⟨r.2 ++ [.qdelete point_uuid, .xack], false⟩
    else ⟨r.2, true⟩
  else if operation = some "insert" ∨ operation = some "update" then
    match getField m "vector" with
    | none => ⟨[.logError], false⟩
    | some vj =>
        if vj = "" then ⟨[.logError], false⟩
        else
          match parseVector vj with
          | none => ⟨[.logError], false⟩
          | some vector =>
              if vector.length ≠ expectedSize then ⟨[.logError], false⟩
              else
                let point_uuid := mongodbIdToUuid doc_id
                let point : Point := ⟨point_uuid, vector, buildPayload m⟩
                let r := qdrantTry oc 0 maxRetries
                if r.1 then ⟨r.2 ++ [.qupsert point, .xack], false⟩
                else ⟨r.2, true⟩
  else ⟨[.xack], false⟩

/-! ### Trace observations -/

/-- Sleeps recorded in a Stage-1 trace. -/
def sleeps1 (t : List Ev1) : List Nat :=
  t.filterMap fun e =>
    match e with
    | .sleep n => some n
    | _ => none

/-- Messages appended to the Stage-2 stream in a Stage-1 trace. -/
def appends1 (t : List Ev1) : List Msg :=
  t.filterMap fun e =>
    match e with
    | .xadd m => some m
    | _ => none

/-- Is this Stage-2 event a successful vector-store mutation? -/
def isMutation : Ev2 → Bool
  | .qdelete _ => true
  | .qupsert _ => true
  | _ => false

/-- Point identifiers deleted in a Stage-2 trace. -/
def deletedIds (t : List Ev2) : List String :=
  t.filterMap fun e =>
    match e with
    | .qdelete pid => some pid
    | _ => none

/-- Points upserted in a Stage-2 trace. -/
def upsertedPoints (t : List Ev2) : List Point :=
  t.filterMap fun e =>
    match e with
    | .qupsert p => some p
    | _ => none

/-! ### Vector-store state

The Qdrant collection is a finite map from point identifier to point;
upsert overwrites the point at its id, delete removes it.  Applying a
trace replays its successful mutations in order. -/

/-- The vector store as a map from point id to stored point. -/
def QStore : Type := String → Option Point

/-- Effect of one Stage-2 event on the store. -/
def applyEv (s : QStore) : Ev2 → QStore
  | .qdelete pid => fun k => if k = pid then none else s k
  | .qupsert p => fun k => if k = p.id then some p else s k
  | .sleep _ => s
  | .logError => s
  | .xack => s

/-- Replay a Stage-2 trace over the store. -/
def applyTrace (s : QStore) (t : List Ev2) : QStore :=
  t.foldl applyEv s

/-- The store after the IndexConsumer processes message `m` once. -/
def runStore (oc : Nat → Bool) (m : Msg) (s : QStore) : QStore :=
  applyTrace s (processEmbedded oc m).trace

/-- Every stored point sits at the key derived from its own document id;
this is the shape every store reachable by the consumer has. -/
def keyedById (s : QStore) : Prop :=
  ∀ k p, s k = some p → k = mongodbIdToUuid p.payload.mongodb_id

/-- At most one stored point carries any given document id. -/
def atMostOnePerDoc (s : QStore) : Prop :=
  ∀ k₁ k₂ p₁ p₂, s k₁ = some p₁ → s k₂ = some p₂ →
    p₁.payload.mongodb_id = p₂.payload.mongodb_id → k₁ = k₂

/-- Closed form of the success bit of the three-attempt Qdrant retry loop. -/
def qdrantSucceeds (oc : Nat → Bool) : Bool := oc 0 || oc 1 || oc 2

/-- Closed form of the backoff sleeps of the three-attempt Qdrant retry
loop. -/
def qdrantSleeps (oc : Nat → Bool) : List Ev2 :=
  if oc 0 then []
  else if oc 1 then [.sleep 1]
  else [.sleep 1, .sleep 2]

/-! ### Concrete test inputs -/

/-- A 384-dimensional vector (the provider's fixed dimension). -/
def vec384 : List Int := List.replicate 384 0

/-- Its `json.dumps` serialization. -/
def vec384Str : String := jsonDumpVector vec384

/-- Oracle of a healthy Qdrant: every attempt succeeds. -/
def ocUp : Nat → Bool := fun _ => true

/-- Oracle of a down Qdrant: every attempt fails. -/
def ocDown : Nat → Bool := fun _ => false

/-- Oracle of a down embedding service: every attempt raises. -/
def svcDown : Nat → Option (List Int) := fun _ => none

/-- Oracle of a healthy embedding service returning the 384-vector. -/
def svcUp : Nat → Option (List Int) := fun _ => some vec384

/-- Stage-2 insert message whose vector parses but has length 2. -/
def msgWrongDim : Msg :=
  [("operation", "insert"), ("doc_id", "A"), ("vector", "[1, 2]")]

/-- Stage-2 message with no operation field at all. -/
def msgNoOp : Msg := [("doc_id", "A")]

/-- Stage-2 message with an unrecognized operation. -/
def msgUnknownOp : Msg := [("operation", "noop"), ("doc_id", "A")]

/-- Stage-2 delete tombstone. -/
def msgDelete2 : Msg := [("operation", "delete"), ("doc_id", "A")]

/-- Stage-2 insert message with a valid 384-dimensional vector. -/
def msgUpsert2 : Msg :=
  [("operation", "insert"), ("doc_id", "A"), ("vector", vec384Str)]

/-- Stage-1 insert whose embedding input text is empty (empty subject, no
content field). -/
def rawEmpty : Msg :=
  [("operation", "insert"), ("doc_id", "A"), ("subject", ""),
   ("timestamp", "t0")]

/-- Stage-1 update whose embedding input text is whitespace-only. -/
def rawBlank : Msg :=
  [("operation", "update"), ("doc_id", "C"), ("subject", " "),
   ("timestamp", "t2")]

/-- Stage-1 delete event. -/
def rawDelete : Msg :=
  [("operation", "delete"), ("doc_id", "B"), ("timestamp", "t1")]

/-- Stage-1 insert of a document with subject and content. -/
def rawDoc : Msg :=
  [("operation", "insert"), ("doc_id", "A"), ("subject", "S"),
   ("content", "hello"), ("timestamp", "t0")]

/-- The Stage-2 message the EnrichmentConsumer appends for `rawDoc`. -/
def emDoc : Msg :=
  (appends1 (processRaw svcUp "T" rawDoc).trace).headD []

/-- The empty vector store. -/
def s0 : QStore := fun _ => none

/-- The Stage-2 message `xadd` writes for an insert/update whose raw
message has doc_id `d` and timestamp `ts`: the serialized form of
`buildEmbedded`. -/
def serializedEmbedded (m : Msg) (op now d ts : String) (v : List Int) :
    Msg :=
  [("operation", op), ("doc_id", d),
   ("product", getFieldD m "product" ""),
   ("customer", getFieldD m "customer" ""),
   ("owner", getFieldD m "owner" ""),
   ("date", getFieldD m "date" ""),
   ("subject", getFieldD m "subject" ""),
   ("content_full", getFieldD m "content" ""),
   ("content_preview", contentPreviewOf (getFieldD m "content" "")),
   ("vector", jsonDumpVector v),
   ("vector_size", toString v.length),
   ("timestamp", now), ("stage", "embedded"),
   ("original_timestamp", ts)]

/-! ### Characterization lemmas -/

theorem qdrantTry_eq (oc : Nat → Bool) :
    qdrantTry oc 0 maxRetries = (qdrantSucceeds oc, qdrantSleeps oc) := by
  cases h0 : oc 0 <;> cases h1 : oc 1 <;> cases h2 : oc 2 <;>
    simp [maxRetries, qdrantTry, qdrantSucceeds, qdrantSleeps, h0, h1, h2]

theorem getEmbedding_eq (svc : Nat → Option (List Int)) :
    getEmbedding svc =
      match svc 0 with
      | some v => (some v, [.embedCall])
      | none =>
        match svc 1 with
        | some v => (some v, [.embedCall, .sleep 1, .embedCall])
        | none =>
          match svc 2 with
          | some v =>
              (some v, [.embedCall, .sleep 1, .embedCall, .sleep 2, .embedCall])
          | none =>
              (none, [.embedCall, .sleep 1, .embedCall, .sleep 2, .embedCall]) := by
  rcases h0 : svc 0 with _ | v0 <;> rcases h1 : svc 1 with _ | v1 <;>
    rcases h2 : svc 2 with _ | v2 <;>
    simp [getEmbedding, getEmbeddingGo, maxRetries, h0, h1, h2]

theorem getEmbedding_trace (svc : Nat → Option (List Int)) :
    appends1 (getEmbedding svc).2 = [] ∧
    Ev1.xack ∉ (getEmbedding svc).2 ∧
    (getEmbedding svc).2.count Ev1.embedCall ≤ 3 ∧
    (sleeps1 (getEmbedding svc).2 = [] ∨ sleeps1 (getEmbedding svc).2 = [1] ∨
      sleeps1 (getEmbedding svc).2 = [1, 2]) ∧
    (∀ e ∈ (getEmbedding svc).2, e = Ev1.embedCall ∨ ∃ n, e = Ev1.sleep n) ∧
    ((getEmbedding svc).1 = none →
      (getEmbedding svc).2.count Ev1.embedCall = 3 ∧
      sleeps1 (getEmbedding svc).2 = [1, 2]) := by
  rw [getEmbedding_eq]
  rcases h0 : svc 0 with _ | v0 <;> rcases h1 : svc 1 with _ | v1 <;>
    rcases h2 : svc 2 with _ | v2 <;>
    simp [appends1, sleeps1, List.count_cons]

theorem qdrantSleeps_trace (oc : Nat → Bool) (s : QStore) :
    (qdrantSleeps oc).filter isMutation = [] ∧
    Ev2.xack ∉ qdrantSleeps oc ∧
    deletedIds (qdrantSleeps oc) = [] ∧
    upsertedPoints (qdrantSleeps oc) = [] ∧
    applyTrace s (qdrantSleeps oc) = s := by
  cases h0 : oc 0 <;> cases h1 : oc 1 <;>
    simp [qdrantSleeps, h0, h1, isMutation, deletedIds, upsertedPoints,
      applyTrace, applyEv]

theorem processEmbedded_delete_eq (oc : Nat → Bool) (m : Msg)
    (hop : getField m "operation" = some "delete") :
    processEmbedded oc m =
      if qdrantSucceeds oc then
        ⟨qdrantSleeps oc ++
          [.qdelete (mongodbIdToUuid (getField m "doc_id")), .xack], false⟩
      else ⟨qdrantSleeps oc, true⟩ := by
  simp [processEmbedded, hop, qdrantTry_eq]

theorem processEmbedded_upsert_eq (oc : Nat → Bool) (m : Msg) (vj : String)
    (v : List Int)
    (hop : getField m "operation" = some "insert" ∨
      getField m "operation" = some "update")
    (hvj : getField m "vector" = some vj) (hne : vj ≠ "")
    (hpv : parseVector vj = some v) (hlen : v.length = 384) :
    processEmbedded oc m =
      if qdrantSucceeds oc then
        ⟨qdrantSleeps oc ++
          [.qupsert ⟨mongodbIdToUuid (getField m "doc_id"), v, buildPayload m⟩,
           .xack], false⟩
      else ⟨qdrantSleeps oc, true⟩ := by
  rcases hop with hop | hop <;>
    simp [processEmbedded, hop, hvj, hne, hpv, expectedSize, hlen, qdrantTry_eq]

theorem processEmbedded_badvector_eq (oc : Nat → Bool) (m : Msg)
    (hop : getField m "operation" = some "insert" ∨
      getField m "operation" = some "update")
    (hbad : getField m "vector" = none ∨
      ∃ vj, getField m "vector" = some vj ∧
        (vj = "" ∨ parseVector vj = none ∨
          ∃ v, parseVector vj = some v ∧ v.length ≠ 384)) :
    processEmbedded oc m = ⟨[.logError], false⟩ := by
  rcases hbad with hv | ⟨vj, hvj, hvb⟩
  · rcases hop with hop | hop <;> simp [processEmbedded, hop, hv]
  · rcases hvb with he | hpn | ⟨v, hpv, hlen⟩
    · rcases hop with hop | hop <;> simp [processEmbedded, hop, hvj, he]
    · by_cases he : vj = ""
      · rcases hop with hop | hop <;> simp [processEmbedded, hop, hvj, he]
      · rcases hop with hop | hop <;>
          simp [processEmbedded, hop, hvj, he, hpn]
    · by_cases he : vj = ""
      · rcases hop with hop | hop <;> simp [processEmbedded, hop, hvj, he]
      · rcases hop with hop | hop <;>
          simp [processEmbedded, hop, hvj, he, hpv, expectedSize, hlen]

theorem processRaw_delete_eq (svc : Nat → Option (List Int)) (now : String)
    (m : Msg) (hop : getField m "operation" = some "delete") :
    processRaw svc now m =
      match serializeMsg (buildTombstone m now) with
      | some m2 => ⟨[.xadd m2, .xack], false⟩
      | none => ⟨[], true⟩ := by
  simp [processRaw, hop]

theorem processRaw_embed_eq (svc : Nat → Option (List Int)) (now : String)
    (m : Msg)
    (hop : getField m "operation" = some "insert" ∨
      getField m "operation" = some "update")
    (htext : pyStrip (embedText m) ≠ "") :
    processRaw svc now m =
      match (getEmbedding svc).1 with
      | none => ⟨(getEmbedding svc).2, true⟩
      | some vector =>
          match serializeMsg
              (buildEmbedded m (getField m "operation") vector now) with
          | some m2 => ⟨(getEmbedding svc).2 ++ [.xadd m2, .xack], false⟩
          | none => ⟨(getEmbedding svc).2, true⟩ := by
  rcases hop with hop | hop <;> simp [processRaw, hop, htext]

theorem processRaw_forward_eq (svc : Nat → Option (List Int)) (now : String)
    (m : Msg) (v : List Int) (em : Msg)
    (hop : getField m "operation" = some "insert" ∨
      getField m "operation" = some "update")
    (htext : pyStrip (embedText m) ≠ "")
    (hv1 : (getEmbedding svc).1 = some v)
    (hser : serializeMsg (buildEmbedded m (getField m "operation") v now)
      = some em) :
    processRaw svc now m
      = ⟨(getEmbedding svc).2 ++ [.xadd em, .xack], false⟩ := by
  have he := processRaw_embed_eq svc now m hop htext
  simp only [hv1] at he
  simp only [hser] at he
  exact he

theorem buildEmbedded_serialize (m : Msg) (op : String) (v : List Int)
    (now d ts : String)
    (hd : getField m "doc_id" = some d)
    (hts : getField m "timestamp" = some ts) :
    serializeMsg (buildEmbedded m (some op) v now)
      = some (serializedEmbedded m op now d ts v) := by
  simp [buildEmbedded, serializeMsg, serializeVal, optStr, hd, hts,
    serializedEmbedded]

theorem appends1_append (a b : List Ev1) :
    appends1 (a ++ b) = appends1 a ++ appends1 b := by
  simp [appends1]

theorem sleeps1_append (a b : List Ev1) :
    sleeps1 (a ++ b) = sleeps1 a ++ sleeps1 b := by
  simp [sleeps1]

theorem deletedIds_append (a b : List Ev2) :
    deletedIds (a ++ b) = deletedIds a ++ deletedIds b := by
  simp [deletedIds]

theorem upsertedPoints_append (a b : List Ev2) :
    upsertedPoints (a ++ b) = upsertedPoints a ++ upsertedPoints b := by
  simp [upsertedPoints]

theorem applyTrace_append (s : QStore) (a b : List Ev2) :
    applyTrace s (a ++ b) = applyTrace (applyTrace s a) b := by
  simp [applyTrace]

/-! ### Claim C9 -/

/-- C9: a Stage-2 message whose operation field is neither `delete` nor
`insert` nor `update` (a missing operation field included) falls through
both branches of `_process_embedded_message`: no vector-store call is made,
nothing is raised, and the message is still acknowledged, removing it
permanently from the pending set. -/
theorem unknownOperationAckedWithoutMutation (oc : Nat → Bool) (m : Msg)
    (h1 : getField m "operation" ≠ some "delete")
    (h2 : getField m "operation" ≠ some "insert")
    (h3 : getField m "operation" ≠ some "update") :
    deletedIds (processEmbedded oc m).trace = [] ∧
    upsertedPoints (processEmbedded oc m).trace = [] ∧
    (processEmbedded oc m).trace = [Ev2.xack] ∧
    (processEmbedded oc m).raised = false := by
  have he : processEmbedded oc m = ⟨[Ev2.xack], false⟩ := by
    simp [processEmbedded, h1, h2, h3]
  rw [he]
  refine ⟨rfl, rfl, rfl, rfl⟩

/-- Witness for C9 at the concrete message with operation `noop`. -/
theorem unknownOperationAckedWithoutMutation_witness :
    (getField msgUnknownOp "operation" ≠ some "delete" ∧
     getField msgUnknownOp "operation" ≠ some "insert" ∧
     getField msgUnknownOp "operation" ≠ some "update") ∧
    (deletedIds (processEmbedded ocUp msgUnknownOp).trace = [] ∧
     upsertedPoints (processEmbedded ocUp msgUnknownOp).trace = [] ∧
     (processEmbedded ocUp msgUnknownOp).trace = [Ev2.xack] ∧
     (processEmbedded ocUp msgUnknownOp).raised = false) :=
  ⟨by decide,
   unknownOperationAckedWithoutMutation ocUp msgUnknownOp
     (by decide) (by decide) (by decide)⟩

/-! ### Claim C1 -/

/-- C1 counterexample: at the concrete Stage-2 insert message whose vector
field `"[1, 2]"` parses as JSON to a 2-element array (length ≠ 384), the
consumer logs the error and returns early — the `xack` line is never
reached, so the claim's "acknowledges the message" is false at this
input (the error log and the absence of mutations do hold). -/
theorem wrongDimensionMessageNotAcked_cex :
    parseVector "[1, 2]" = some [1, 2] ∧
    (processEmbedded ocUp msgWrongDim).trace = [Ev2.logError] ∧
    Ev2.xack ∉ (processEmbedded ocUp msgWrongDim).trace ∧
    deletedIds (processEmbedded ocUp msgWrongDim).trace = [] ∧
    upsertedPoints (processEmbedded ocUp msgWrongDim).trace = [] := by
  decide

/-- C1 amended: for every Stage-2 insert/update message whose vector field
parses as JSON but has length ≠ 384, the IndexConsumer logs an error,
performs no vector-store upsert or delete, raises nothing — and leaves the
message unacknowledged: the early `return` skips the `xack`, so the message
stays in the pending set (it is not removed as the claim stated). -/
theorem wrongDimensionLoggedSkippedUnacked (oc : Nat → Bool) (m : Msg)
    (vj : String) (v : List Int)
    (hop : getField m "operation" = some "insert" ∨
      getField m "operation" = some "update")
    (hvj : getField m "vector" = some vj)
    (hpv : parseVector vj = some v) (hlen : v.length ≠ 384) :
    (processEmbedded oc m).trace = [Ev2.logError] ∧
    Ev2.xack ∉ (processEmbedded oc m).trace ∧
    deletedIds (processEmbedded oc m).trace = [] ∧
    upsertedPoints (processEmbedded oc m).trace = [] ∧
    (processEmbedded oc m).raised = false := by
  have he := processEmbedded_badvector_eq oc m hop
    (Or.inr ⟨vj, hvj, Or.inr (Or.inr ⟨v, hpv, hlen⟩)⟩)
  rw [he]
  refine ⟨rfl, by decide, rfl, rfl, rfl⟩

/-- Witness for the amended C1 at the concrete wrong-dimension message. -/
theorem wrongDimensionLoggedSkippedUnacked_witness :
    ((getField msgWrongDim "operation" = some "insert" ∨
      getField msgWrongDim "operation" = some "update") ∧
     getField msgWrongDim "vector" = some "[1, 2]" ∧
     parseVector "[1, 2]" = some [1, 2] ∧ ([1, 2] : List Int).length ≠ 384) ∧
    ((processEmbedded ocDown msgWrongDim).trace = [Ev2.logError] ∧
     Ev2.xack ∉ (processEmbedded ocDown msgWrongDim).trace ∧
     deletedIds (processEmbedded ocDown msgWrongDim).trace = [] ∧
     upsertedPoints (processEmbedded ocDown msgWrongDim).trace = [] ∧
     (processEmbedded ocDown msgWrongDim).raised = false) :=
  ⟨by decide,
   wrongDimensionLoggedSkippedUnacked ocDown msgWrongDim "[1, 2]" [1, 2]
     (by decide) (by decide) (by decide) (by decide)⟩

/-! ### Claim C4 -/

/-- C4: an insert/update Stage-1 message whose embedding input text (the
space-joined concatenation of the truthy subject and content fields) is
empty or whitespace-only is acknowledged immediately: nothing is appended
to Stage 2, the embedding provider is called zero times, and nothing is
raised — so nothing about this document ever reaches the IndexConsumer. -/
theorem emptyTextSkipAckNoForwardNoEmbed (svc : Nat → Option (List Int))
    (now : String) (m : Msg)
    (hop : getField m "operation" = some "insert" ∨
      getField m "operation" = some "update")
    (hempty : pyStrip (embedText m) = "") :
    (processRaw svc now m).trace = [Ev1.xack] ∧
    (processRaw svc now m).raised = false ∧
    appends1 (processRaw svc now m).trace = [] ∧
    (processRaw svc now m).trace.count Ev1.embedCall = 0 := by
  have he : processRaw svc now m = ⟨[Ev1.xack], false⟩ := by
    rcases hop with hop | hop <;> simp [processRaw, hop, hempty]
  rw [he]
  refine ⟨rfl, rfl, rfl, rfl⟩

/-- Witness for C4 at the whitespace-only update `rawBlank`. -/
theorem emptyTextSkipAckNoForwardNoEmbed_witness :
    ((getField rawBlank "operation" = some "insert" ∨
      getField rawBlank "operation" = some "update") ∧
     pyStrip (embedText rawBlank) = "") ∧
    ((processRaw svcDown "T" rawBlank).trace = [Ev1.xack] ∧
     (processRaw svcDown "T" rawBlank).raised = false ∧
     appends1 (processRaw svcDown "T" rawBlank).trace = [] ∧
     (processRaw svcDown "T" rawBlank).trace.count Ev1.embedCall = 0) :=
  ⟨by decide,
   emptyTextSkipAckNoForwardNoEmbed svcDown "T" rawBlank
     (Or.inr (by decide)) (by decide)⟩

/-! ### Claim C2 -/

/-- C2 counterexample: the empty-text insert `rawEmpty` is acknowledged by
`_process_raw_message` although no Stage-2 message was ever appended, so
the claimed "acknowledged if and only if a Stage-2 message was successfully
appended before it", quantified over every Stage-1 message, is false at
this input. -/
theorem stage1AckedWithoutForward_cex :
    Ev1.xack ∈ (processRaw svcUp "T" rawEmpty).trace ∧
    appends1 (processRaw svcUp "T" rawEmpty).trace = [] := by
  decide

/-- C2 amended: for every Stage-1 message other than the explicit
empty-text insert/update skip, the Stage-1 acknowledgment happens iff a
Stage-2 append succeeded before it, and whenever the acknowledgment
happens the trace ends with that append immediately followed by the ack
(every earlier event is an embedding call or a backoff sleep), so the
acknowledgment never precedes the successful Stage-2 append. -/
theorem stage1AckIffForwardedFirst (svc : Nat → Option (List Int))
    (now : String) (m : Msg)
    (hskip : ¬((getField m "operation" = some "insert" ∨
        getField m "operation" = some "update") ∧
      pyStrip (embedText m) = "")) :
    (Ev1.xack ∈ (processRaw svc now m).trace ↔
      appends1 (processRaw svc now m).trace ≠ []) ∧
    (Ev1.xack ∈ (processRaw svc now m).trace →
      ∃ pre em,
        (processRaw svc now m).trace = pre ++ [Ev1.xadd em, Ev1.xack] ∧
        ∀ e ∈ pre, e = Ev1.embedCall ∨ ∃ n, e = Ev1.sleep n) := by
  by_cases hdel : getField m "operation" = some "delete"
  · have he := processRaw_delete_eq svc now m hdel
    rcases hser : serializeMsg (buildTombstone m now) with _ | m2 <;>
      rw [hser] at he <;> rw [he]
    · simp [appends1]
    · exact ⟨by simp [appends1], fun _ => ⟨[], m2, rfl, by simp⟩⟩
  · by_cases hop : getField m "operation" = some "insert" ∨
        getField m "operation" = some "update"
    · have htext : pyStrip (embedText m) ≠ "" := fun h => hskip ⟨hop, h⟩
      have he := processRaw_embed_eq svc now m hop htext
      obtain ⟨ha, hx, -, -, hsh, -⟩ := getEmbedding_trace svc
      rcases hemb : (getEmbedding svc).1 with _ | v <;>
        simp only [hemb] at he
      · rw [he]
        simp [ha, hx]
      · rcases hser : serializeMsg
            (buildEmbedded m (getField m "operation") v now) with _ | m2 <;>
          simp only [hser] at he <;> rw [he]
        · simp [ha, hx]
        · constructor
          · simp [appends1_append, ha, appends1]
          · exact fun _ => ⟨(getEmbedding svc).2, m2, rfl, hsh⟩
    · have he : processRaw svc now m = ⟨[], true⟩ := by
        simp [processRaw, hdel, hop]
      rw [he]
      simp [appends1]

/-- Witness for the amended C2 at the delete tombstone `rawDelete`. -/
theorem stage1AckIffForwardedFirst_witness :
    (¬((getField rawDelete "operation" = some "insert" ∨
        getField rawDelete "operation" = some "update") ∧
      pyStrip (embedText rawDelete) = "")) ∧
    ((Ev1.xack ∈ (processRaw svcUp "T" rawDelete).trace ↔
      appends1 (processRaw svcUp "T" rawDelete).trace ≠ []) ∧
     (Ev1.xack ∈ (processRaw svcUp "T" rawDelete).trace →
      ∃ pre em,
        (processRaw svcUp "T" rawDelete).trace = pre ++ [Ev1.xadd em, Ev1.xack] ∧
        ∀ e ∈ pre, e = Ev1.embedCall ∨ ∃ n, e = Ev1.sleep n)) :=
  ⟨by decide, stage1AckIffForwardedFirst svcUp "T" rawDelete (by decide)⟩

/-! ### Claim C3 -/

/-- C3 counterexample: the Stage-2 message with a missing operation field
is acknowledged although no vector-store mutation was even attempted, so
the claimed "acknowledged iff its vector-store mutation returned success",
quantified over every Stage-2 message, is false at this input. -/
theorem stage2AckedWithoutMutation_cex :
    Ev2.xack ∈ (processEmbedded ocUp msgNoOp).trace ∧
    (processEmbedded ocUp msgNoOp).trace.filter isMutation = [] ∧
    (processEmbedded ocUp msgNoOp).raised = false := by
  decide

/-- C3 amended: for every Stage-2 message whose operation is `delete`,
`insert`, or `update`, the message is acknowledged iff a vector-store
mutation (delete or upsert) returned success, and whenever the call raises
(retry exhaustion included) the message is left unacknowledged. -/
theorem stage2AckIffMutationSuccess (oc : Nat → Bool) (m : Msg)
    (hop : getField m "operation" = some "delete" ∨
      getField m "operation" = some "insert" ∨
      getField m "operation" = some "update") :
    (Ev2.xack ∈ (processEmbedded oc m).trace ↔
      (processEmbedded oc m).trace.filter isMutation ≠ []) ∧
    ((processEmbedded oc m).raised = true →
      Ev2.xack ∉ (processEmbedded oc m).trace) := by
  obtain ⟨hfm, hxm, -, -, -⟩ := qdrantSleeps_trace oc s0
  rcases hop with hdel | hop
  · have he := processEmbedded_delete_eq oc m hdel
    rw [he]
    cases hq : qdrantSucceeds oc <;>
      simp [hq, hfm, hxm, isMutation, List.filter_append]
  · rcases hv : getField m "vector" with _ | vj
    · have he := processEmbedded_badvector_eq oc m hop (Or.inl hv)
      rw [he]
      simp [isMutation]
    · by_cases hne : vj = ""
      · have he := processEmbedded_badvector_eq oc m hop
          (Or.inr ⟨vj, hv, Or.inl hne⟩)
        rw [he]
        simp [isMutation]
      · rcases hpv : parseVector vj with _ | v
        · have he := processEmbedded_badvector_eq oc m hop
            (Or.inr ⟨vj, hv, Or.inr (Or.inl hpv)⟩)
          rw [he]
          simp [isMutation]
        · by_cases hlen : v.length = 384
          · have he := processEmbedded_upsert_eq oc m vj v hop hv hne hpv hlen
            rw [he]
            cases hq : qdrantSucceeds oc <;>
              simp [hq, hfm, hxm, isMutation, List.filter_append]
          · have he := processEmbedded_badvector_eq oc m hop
              (Or.inr ⟨vj, hv, Or.inr (Or.inr ⟨v, hpv, hlen⟩)⟩)
            rw [he]
            simp [isMutation]

/-- Witness for the amended C3 at the delete tombstone `msgDelete2` with a
healthy Qdrant. -/
theorem stage2AckIffMutationSuccess_witness :
    (getField msgDelete2 "operation" = some "delete" ∨
     getField msgDelete2 "operation" = some "insert" ∨
     getField msgDelete2 "operation" = some "update") ∧
    ((Ev2.xack ∈ (processEmbedded ocUp msgDelete2).trace ↔
      (processEmbedded ocUp msgDelete2).trace.filter isMutation ≠ []) ∧
     ((processEmbedded ocUp msgDelete2).raised = true →
      Ev2.xack ∉ (processEmbedded ocUp msgDelete2).trace)) :=
  ⟨by decide, stage2AckIffMutationSuccess ocUp msgDelete2 (by decide)⟩

/-! ### Claim C5 -/

/-- C5: the point-identity mapping is a pure, deterministic function: it is
exactly the UUIDv5 of `str(doc_id)` under the fixed namespace constant,
equal document ids give byte-for-byte equal identifiers, and the delete
path and the upsert path of the consumer both target exactly this
identifier for the message's doc_id. -/
theorem pointIdentityDeterministic :
    (∀ d : Option String,
      mongodbIdToUuid d = uuid5 uuidNamespaceBytes (pyStr d)) ∧
    (∀ d₁ d₂ : Option String, d₁ = d₂ →
      mongodbIdToUuid d₁ = mongodbIdToUuid d₂) ∧
    (∀ (oc : Nat → Bool) (m : Msg),
      getField m "operation" = some "delete" → qdrantSucceeds oc = true →
      deletedIds (processEmbedded oc m).trace
        = [mongodbIdToUuid (getField m "doc_id")]) ∧
    (∀ (oc : Nat → Bool) (m : Msg) (vj : String) (v : List Int),
      (getField m "operation" = some "insert" ∨
        getField m "operation" = some "update") →
      getField m "vector" = some vj → vj ≠ "" → parseVector vj = some v →
      v.length = 384 → qdrantSucceeds oc = true →
      (upsertedPoints (processEmbedded oc m).trace).map Point.id
        = [mongodbIdToUuid (getField m "doc_id")]) := by
  refine ⟨fun d => rfl, fun d₁ d₂ h => by rw [h], ?_, ?_⟩
  · intro oc m hdel hq
    obtain ⟨-, -, hdi, -, -⟩ := qdrantSleeps_trace oc s0
    have he := processEmbedded_delete_eq oc m hdel
    rw [he, if_pos hq]
    show deletedIds (qdrantSleeps oc ++
      [Ev2.qdelete (mongodbIdToUuid (getField m "doc_id")), Ev2.xack]) = _
    rw [deletedIds_append, hdi]
    rfl
  · intro oc m vj v hop hvj hne hpv hlen hq
    obtain ⟨-, -, -, hup, -⟩ := qdrantSleeps_trace oc s0
    have he := processEmbedded_upsert_eq oc m vj v hop hvj hne hpv hlen
    rw [he, if_pos hq]
    show (upsertedPoints (qdrantSleeps oc ++
      [Ev2.qupsert ⟨mongodbIdToUuid (getField m "doc_id"), v, buildPayload m⟩,
       Ev2.xack])).map Point.id = _
    rw [upsertedPoints_append, hup]
    rfl

/-- Witness for C5: the delete path at `msgDelete2` and the upsert path at
`msgUpsert2` both target the point id of doc "A". -/
theorem pointIdentityDeterministic_witness :
    (getField msgDelete2 "operation" = some "delete" ∧
     qdrantSucceeds ocUp = true ∧
     deletedIds (processEmbedded ocUp msgDelete2).trace
       = [mongodbIdToUuid (getField msgDelete2 "doc_id")]) ∧
    ((getField msgUpsert2 "operation" = some "insert" ∨
      getField msgUpsert2 "operation" = some "update") ∧
     getField msgUpsert2 "vector" = some vec384Str ∧ vec384Str ≠ "" ∧
     parseVector vec384Str = some vec384 ∧ vec384.length = 384 ∧
     (upsertedPoints (processEmbedded ocUp msgUpsert2).trace).map Point.id
       = [mongodbIdToUuid (getField msgUpsert2 "doc_id")]) :=
  ⟨⟨by decide, by decide,
    pointIdentityDeterministic.2.2.1 ocUp msgDelete2 (by decide) (by decide)⟩,
   ⟨Or.inl (by decide), rfl, by decide, by decide, by decide,
    pointIdentityDeterministic.2.2.2 ocUp msgUpsert2 vec384Str vec384
      (Or.inl (by decide)) rfl (by decide) (by decide) (by decide) (by decide)⟩⟩

/-! ### Claim C6 -/

/-- C6: processing the same valid insert/update Stage-2 message any number
of times ≥ 1 leaves the vector store exactly as processing it once, and on
every store whose points sit at their deterministic keys the result holds
at most one IndexPoint per doc_id: duplicate deliveries are absorbed by
upserting to the same deterministically derived point id. -/
theorem duplicateDeliveryIdempotent (oc : Nat → Bool) (m : Msg) (s : QStore)
    (vj : String) (v : List Int)
    (hop : getField m "operation" = some "insert" ∨
      getField m "operation" = some "update")
    (hvj : getField m "vector" = some vj) (hne : vj ≠ "")
    (hpv : parseVector vj = some v) (hlen : v.length = 384)
    (hq : qdrantSucceeds oc = true) (hs : keyedById s) :
    (∀ n : Nat, (runStore oc m)^[n + 1] s = runStore oc m s) ∧
    keyedById (runStore oc m s) ∧
    atMostOnePerDoc (runStore oc m s) := by
  have he := processEmbedded_upsert_eq oc m vj v hop hvj hne hpv hlen
  have hrun : ∀ s' : QStore, runStore oc m s' = fun k =>
      if k = mongodbIdToUuid (getField m "doc_id") then
        some ⟨mongodbIdToUuid (getField m "doc_id"), v, buildPayload m⟩
      else s' k := by
    intro s'
    obtain ⟨-, -, -, -, hap⟩ := qdrantSleeps_trace oc s'
    have ht : (processEmbedded oc m).trace = qdrantSleeps oc ++
        [Ev2.qupsert ⟨mongodbIdToUuid (getField m "doc_id"), v, buildPayload m⟩,
         Ev2.xack] := by
      rw [he, if_pos hq]
    show applyTrace s' (processEmbedded oc m).trace = _
    rw [ht, applyTrace_append, hap]
    funext k
    simp only [applyTrace, List.foldl, applyEv]
  have hfix : runStore oc m (runStore oc m s) = runStore oc m s := by
    rw [hrun, hrun]
    funext k
    by_cases hk : k = mongodbIdToUuid (getField m "doc_id") <;> simp [hk]
  have hpid : (buildPayload m).mongodb_id = getField m "doc_id" := rfl
  have hkey : keyedById (runStore oc m s) := by
    rw [hrun]
    intro k p hkp
    dsimp only at hkp
    by_cases hk : k = mongodbIdToUuid (getField m "doc_id")
    · rw [hk] at hkp ⊢
      rw [if_pos rfl] at hkp
      simp only [Option.some.injEq] at hkp
      rw [← hkp]
      show mongodbIdToUuid (getField m "doc_id")
        = mongodbIdToUuid (buildPayload m).mongodb_id
      rw [hpid]
    · rw [if_neg hk] at hkp
      exact hs k p hkp
  refine ⟨?_, hkey, ?_⟩
  · intro n
    induction n with
    | zero => rfl
    | succ n ih => rw [Function.iterate_succ_apply', ih, hfix]
  · intro k₁ k₂ p₁ p₂ h1 h2 hd
    rw [hkey k₁ p₁ h1, hkey k₂ p₂ h2, hd]

/-- Witness for C6: double delivery of `msgUpsert2` over the empty store
equals a single delivery, and the result has at most one point per doc. -/
theorem duplicateDeliveryIdempotent_witness :
    ((getField msgUpsert2 "operation" = some "insert" ∨
      getField msgUpsert2 "operation" = some "update") ∧
     getField msgUpsert2 "vector" = some vec384Str ∧ vec384Str ≠ "" ∧
     parseVector vec384Str = some vec384 ∧ vec384.length = 384 ∧
     qdrantSucceeds ocUp = true) ∧
    ((runStore ocUp msgUpsert2)^[2] s0 = runStore ocUp msgUpsert2 s0 ∧
     keyedById (runStore ocUp msgUpsert2 s0) ∧
     atMostOnePerDoc (runStore ocUp msgUpsert2 s0)) :=
  ⟨⟨Or.inl (by decide), rfl, by decide, by decide, by decide, by decide⟩,
   let h := duplicateDeliveryIdempotent ocUp msgUpsert2 s0 vec384Str vec384
     (Or.inl (by decide)) rfl (by decide) (by decide) (by decide)
     (by decide) (fun k p hkp => Option.noConfusion hkp)
   ⟨h.1 1, h.2.1, h.2.2⟩⟩

/-! ### Claim C7 -/

/-- C7 (the code at the failing input): the Stage-2 message the
EnrichmentConsumer produces for a document with content `"hello"` carries
`content_full = content_preview = "hello"` — but the point that
`redis_stream/qdrant_consumer.py` upserts has `payload.content = ""`,
because that consumer reads the absent `content` key instead of
`content_full`/`content_preview`; so the upserted payload does not contain
the document content or its preview.  The sibling consumer copy
(`buildPayloadTop`, reading `content_preview`) does carry it. -/
theorem payloadContentDropped :
    getField emDoc "content_full" = some "hello" ∧
    getField emDoc "content_preview" = some "hello" ∧
    (upsertedPoints (processEmbedded ocUp emDoc).trace).map
      (fun p => p.payload.content) = [""] ∧
    (buildPayloadTop emDoc).content = "hello" := by
  decide

/-! ### Claim C8 -/

/-- C8 counterexample: when all three embedding attempts fail, the
provider is called exactly 3 times and the backoff sleeps between
consecutive attempts are 1s and then 2s — no 4s delay ever occurs, so the
claimed backoff schedule "1s, 2s, 4s between attempts" is false on the
maximal run. -/
theorem embeddingRetryDelays_cex :
    (processRaw svcDown "T" rawDoc).trace =
      [Ev1.embedCall, Ev1.sleep 1, Ev1.embedCall, Ev1.sleep 2,
       Ev1.embedCall] ∧
    sleeps1 (processRaw svcDown "T" rawDoc).trace = [1, 2] ∧
    4 ∉ sleeps1 (processRaw svcDown "T" rawDoc).trace ∧
    (processRaw svcDown "T" rawDoc).trace.count Ev1.embedCall = 3 ∧
    (processRaw svcDown "T" rawDoc).raised = true := by
  decide

/-- C8 amended: the embedding call is bounded — the provider is called at
most 3 times, the delays between consecutive attempts are 1s and then 2s
(a prefix of [1, 2], never a 4s delay) — and when every attempt fails the
call raises after exactly 3 calls and the Stage-1 message is left
unacknowledged, available for redelivery. -/
theorem embeddingRetryBoundedNoAckOnFailure (svc : Nat → Option (List Int))
    (now : String) (m : Msg)
    (hop : getField m "operation" = some "insert" ∨
      getField m "operation" = some "update")
    (htext : pyStrip (embedText m) ≠ "") :
    (processRaw svc now m).trace.count Ev1.embedCall ≤ 3 ∧
    (sleeps1 (processRaw svc now m).trace = [] ∨
     sleeps1 (processRaw svc now m).trace = [1] ∨
     sleeps1 (processRaw svc now m).trace = [1, 2]) ∧
    ((∀ i, i < 3 → svc i = none) →
      (processRaw svc now m).raised = true ∧
      (processRaw svc now m).trace.count Ev1.embedCall = 3 ∧
      sleeps1 (processRaw svc now m).trace = [1, 2] ∧
      Ev1.xack ∉ (processRaw svc now m).trace) := by
  have he := processRaw_embed_eq svc now m hop htext
  obtain ⟨-, hx, hc, hsl, -, hfail⟩ := getEmbedding_trace svc
  rcases hemb : (getEmbedding svc).1 with _ | v
  · simp only [hemb] at he
    rw [he]
    exact ⟨hc, hsl, fun _ => ⟨rfl, (hfail hemb).1, (hfail hemb).2, hx⟩⟩
  · have hnone3 : ¬ ∀ i, i < 3 → svc i = none := by
      intro hall
      have hn : (getEmbedding svc).1 = none := by
        rw [getEmbedding_eq, hall 0 (by omega), hall 1 (by omega),
          hall 2 (by omega)]
      rw [hemb] at hn
      exact Option.noConfusion hn
    rcases hser : serializeMsg
        (buildEmbedded m (getField m "operation") v now) with _ | m2 <;>
      simp only [hemb, hser] at he <;> rw [he]
    · exact ⟨hc, hsl, fun hall => absurd hall hnone3⟩
    · refine ⟨?_, ?_, fun hall => absurd hall hnone3⟩
      · show ((getEmbedding svc).2
            ++ [Ev1.xadd m2, Ev1.xack]).count Ev1.embedCall ≤ 3
        rw [List.count_append]
        have h2 : ([Ev1.xadd m2, Ev1.xack]).count Ev1.embedCall = 0 := rfl
        rw [h2]
        omega
      · show sleeps1 ((getEmbedding svc).2 ++ [Ev1.xadd m2, Ev1.xack]) = []
          ∨ sleeps1 ((getEmbedding svc).2 ++ [Ev1.xadd m2, Ev1.xack]) = [1]
          ∨ sleeps1 ((getEmbedding svc).2 ++ [Ev1.xadd m2, Ev1.xack])
            = [1, 2]
        rw [sleeps1_append]
        have h2 : sleeps1 [Ev1.xadd m2, Ev1.xack] = [] := rfl
        rw [h2, List.append_nil]
        exact hsl

/-- Witness for the amended C8: the fully failing service on `rawDoc`. -/
theorem embeddingRetryBoundedNoAckOnFailure_witness :
    ((getField rawDoc "operation" = some "insert" ∨
      getField rawDoc "operation" = some "update") ∧
     pyStrip (embedText rawDoc) ≠ "") ∧
    ((processRaw svcDown "T" rawDoc).trace.count Ev1.embedCall ≤ 3 ∧
     (sleeps1 (processRaw svcDown "T" rawDoc).trace = [] ∨
      sleeps1 (processRaw svcDown "T" rawDoc).trace = [1] ∨
      sleeps1 (processRaw svcDown "T" rawDoc).trace = [1, 2]) ∧
     ((∀ i, i < 3 → svcDown i = none) →
      (processRaw svcDown "T" rawDoc).raised = true ∧
      (processRaw svcDown "T" rawDoc).trace.count Ev1.embedCall = 3 ∧
      sleeps1 (processRaw svcDown "T" rawDoc).trace = [1, 2] ∧
      Ev1.xack ∉ (processRaw svcDown "T" rawDoc).trace)) :=
  ⟨⟨Or.inl (by decide), by decide⟩,
   embeddingRetryBoundedNoAckOnFailure svcDown "T" rawDoc
     (Or.inl (by decide)) (by decide)⟩

/-! ### Claim C10 -/

/-- C10: for every insert/update Stage-1 message the EnrichmentConsumer
successfully embeds and forwards, the single appended Stage-2 message
carries the full document content in `content_full`, and in
`content_preview` the first 500 characters of the content when the content
is longer than 500 characters, otherwise the full content unchanged. -/
theorem producedMessageContentFields (svc : Nat → Option (List Int))
    (now : String) (m : Msg) (v : List Int) (d ts : String)
    (hop : getField m "operation" = some "insert" ∨
      getField m "operation" = some "update")
    (htext : pyStrip (embedText m) ≠ "") (hsvc : svc 0 = some v)
    (hd : getField m "doc_id" = some d)
    (hts : getField m "timestamp" = some ts) :
    ∃ em, appends1 (processRaw svc now m).trace = [em] ∧
      getField em "content_full" = some (getFieldD m "content" "") ∧
      getField em "content_preview" =
        some (if (getFieldD m "content" "").length > 500
          then (getFieldD m "content" "").take 500
          else getFieldD m "content" "") := by
  have hv1 : (getEmbedding svc).1 = some v := by
    rw [getEmbedding_eq, hsvc]
  obtain ⟨ha, -, -, -, -, -⟩ := getEmbedding_trace svc
  rcases hop with hop | hop
  · have hser : serializeMsg
        (buildEmbedded m (getField m "operation") v now)
        = some (serializedEmbedded m "insert" now d ts v) := by
      rw [hop]
      exact buildEmbedded_serialize m "insert" v now d ts hd hts
    have he := processRaw_forward_eq svc now m v _ (Or.inl hop) htext hv1 hser
    refine ⟨serializedEmbedded m "insert" now d ts v, ?_, rfl, rfl⟩
    rw [he]
    show appends1 ((getEmbedding svc).2
      ++ [Ev1.xadd (serializedEmbedded m "insert" now d ts v), Ev1.xack])
      = _
    rw [appends1_append, ha]
    rfl
  · have hser : serializeMsg
        (buildEmbedded m (getField m "operation") v now)
        = some (serializedEmbedded m "update" now d ts v) := by
      rw [hop]
      exact buildEmbedded_serialize m "update" v now d ts hd hts
    have he := processRaw_forward_eq svc now m v _ (Or.inr hop) htext hv1 hser
    refine ⟨serializedEmbedded m "update" now d ts v, ?_, rfl, rfl⟩
    rw [he]
    show appends1 ((getEmbedding svc).2
      ++ [Ev1.xadd (serializedEmbedded m "update" now d ts v), Ev1.xack])
      = _
    rw [appends1_append, ha]
    rfl

/-- Witness for C10 at `rawDoc` with the healthy embedding service. -/
theorem producedMessageContentFields_witness :
    ((getField rawDoc "operation" = some "insert" ∨
      getField rawDoc "operation" = some "update") ∧
     pyStrip (embedText rawDoc) ≠ "" ∧ svcUp 0 = some vec384 ∧
     getField rawDoc "doc_id" = some "A" ∧
     getField rawDoc "timestamp" = some "t0") ∧
    (∃ em, appends1 (processRaw svcUp "T" rawDoc).trace = [em] ∧
      getField em "content_full" = some (getFieldD rawDoc "content" "") ∧
      getField em "content_preview" =
        some (if (getFieldD rawDoc "content" "").length > 500
          then (getFieldD rawDoc "content" "").take 500
          else getFieldD rawDoc "content" "")) :=
  ⟨⟨Or.inl (by decide), by decide, rfl, by decide, by decide⟩,
   producedMessageContentFields svcUp "T" rawDoc vec384 "A" "t0"
     (Or.inl (by decide)) (by decide) rfl (by decide) (by decide)⟩

end ArticleRag
